import Mathlib

/-!
Verification of the flexy-db tenant/migration core against its Go source.

The definitions below are shallow embeddings of the Go code:
  - `RunMigrations` embeds `db.RunMigrations` (internal/db, appended to
    003_create_node_types.up.sql in the source layout): it reads the set of
    applied versions from the tracking table, filters the directory entries to
    the `.up.sql` files, sorts them, and for each unapplied file executes it
    and then records its version.
  - The tenant registry operations embed `PostgresTenantRepository` and
    `TenantService`; gRPC error classification embeds `grpc/errors.MapError`.
  - `relationshipServiceCreate` embeds `RelationshipService.Create`.
  - `mainRun` embeds the startup sequence of `cmd/dbaas-server/main.go`.

Database side effects are made explicit: a `DbState` carries the contents of
the `schema_migrations` tracking table and a log of the scripts that were
actually executed against the database; table contents are lists of rows.
-/

namespace FlexDb

/-! ### Migration engine: `db.RunMigrations` -/

/-- The filename suffix selecting up-migrations, as in the Go code
(`strings.HasSuffix(entry.Name(), ".up.sql")`). -/
def upSqlSuffix : String := ".up.sql"

/-- `strings.HasSuffix`, over the character sequence of the string (Go compares
the byte sequences; UTF-8 preserves the ordering and suffix structure of the
character sequences). -/
def strHasSuffix (s suffix : String) : Bool := suffix.data.isSuffixOf s.data

/-- `strings.TrimSuffix`: drop the suffix when present, else return the string
unchanged. -/
def strTrimSuffix (s suffix : String) : String :=
  if strHasSuffix s suffix then ⟨s.data.take (s.data.length - suffix.data.length)⟩ else s

/-- `strings.TrimSuffix(filename, ".up.sql")`: the version recorded for a
migration file. -/
def versionOf (filename : String) : String := strTrimSuffix filename upSqlSuffix

/-- Abstract state of one target database: the contents of the
`schema_migrations` tracking table (versions, in insertion order) and the log
of migration scripts that have been executed against the database. -/
structure DbState where
  schemaMigrations : List String
  executedLog : List String
deriving Repr, DecidableEq

/-- The directory entries kept by the loop: names ending in `.up.sql`. -/
def upFiles (entries : List String) : List String :=
  entries.filter (fun n => strHasSuffix n upSqlSuffix)

/-- The lexicographic order `sort.Strings` sorts by, on the character
sequences. -/
def strLeq (a b : String) : Prop := a.data ≤ b.data

instance : DecidableRel strLeq := fun a b =>
  inferInstanceAs (Decidable (a.data ≤ b.data))

instance : IsTotal String strLeq :=
  ⟨fun a b => IsTotal.total (r := fun x y : List Char => x ≤ y) a.data b.data⟩

instance : IsTrans String strLeq :=
  ⟨fun _ _ _ hab hbc => le_trans hab hbc⟩

instance : IsAntisymm String strLeq := by
  refine ⟨fun a b h1 h2 => ?_⟩
  cases a
  cases b
  simp only [strLeq] at h1 h2
  exact congrArg String.mk (le_antisymm h1 h2)

/-- `sort.Strings`: lexicographic sort of the filenames. -/
def sortFiles (files : List String) : List String :=
  List.insertionSort strLeq files

/-- The files of `files` whose version is not in `applied`: exactly those the
loop body neither skips nor has seen. -/
def pendingOf (applied : List String) (files : List String) : List String :=
  files.filter (fun f => !(applied.contains (versionOf f)))

/-- The per-file loop of `RunMigrations`: skip a file whose version is in the
`applied` set read before the loop; otherwise execute it (`pool.Exec` of the
script, which may fail — modelled by `execOk`) and insert its version into the
tracking table.  On failure the loop returns the error naming the file and the
remaining files are not processed. -/
def applyLoop (execOk : String → Bool) (applied : List String) :
    List String → DbState → DbState × Option String
  | [], st => (st, none)
  | f :: rest, st =>
    if applied.contains (versionOf f) then
      applyLoop execOk applied rest st
    else if execOk f then
      applyLoop execOk applied rest
        { schemaMigrations := st.schemaMigrations ++ [versionOf f],
          executedLog := st.executedLog ++ [f] }
    else (st, some f)

/-- `db.RunMigrations`: ensure the tracking table exists, read the applied
versions, keep the `.up.sql` entries, sort them, and run the loop.  Returns the
final database state and `some f` when applying file `f` failed. -/
def RunMigrations (execOk : String → Bool) (entries : List String)
    (st : DbState) : DbState × Option String :=
  applyLoop execOk st.schemaMigrations (sortFiles (upFiles entries)) st

theorem sortFiles_perm (l : List String) : (sortFiles l).Perm l :=
  List.perm_insertionSort _ l

theorem sortFiles_sorted (l : List String) :
    List.Sorted strLeq (sortFiles l) :=
  List.sorted_insertionSort _ l

/-- Sorting is determined by the multiset of inputs: enumeration order of the
directory does not matter. -/
theorem sortFiles_eq_of_perm {l₁ l₂ : List String} (h : l₁.Perm l₂) :
    sortFiles l₁ = sortFiles l₂ :=
  List.eq_of_perm_of_sorted
    ((sortFiles_perm l₁).trans (h.trans (sortFiles_perm l₂).symm))
    (sortFiles_sorted l₁) (sortFiles_sorted l₂)

theorem pendingOf_nil (applied : List String) : pendingOf applied [] = [] := rfl

theorem pendingOf_cons_skip {applied : List String} {f : String}
    (rest : List String) (hc : applied.contains (versionOf f) = true) :
    pendingOf applied (f :: rest) = pendingOf applied rest := by
  have hm : versionOf f ∈ applied := by simpa using hc
  simp [pendingOf, List.filter_cons, hm]

theorem pendingOf_cons_keep {applied : List String} {f : String}
    (rest : List String) (hc : applied.contains (versionOf f) = false) :
    pendingOf applied (f :: rest) = f :: pendingOf applied rest := by
  have hm : versionOf f ∉ applied := by simpa using hc
  simp [pendingOf, List.filter_cons, hm]

theorem applyLoop_cons_skip (execOk : String → Bool) {applied : List String}
    {f : String} (rest : List String) (st : DbState)
    (hc : applied.contains (versionOf f) = true) :
    applyLoop execOk applied (f :: rest) st = applyLoop execOk applied rest st := by
  have hm : versionOf f ∈ applied := by simpa using hc
  simp [applyLoop, hm]

theorem applyLoop_cons_exec {execOk : String → Bool} {applied : List String}
    {f : String} (rest : List String) (st : DbState)
    (hc : applied.contains (versionOf f) = false) (hx : execOk f = true) :
    applyLoop execOk applied (f :: rest) st =
      applyLoop execOk applied rest
        { schemaMigrations := st.schemaMigrations ++ [versionOf f],
          executedLog := st.executedLog ++ [f] } := by
  have hm : versionOf f ∉ applied := by simpa using hc
  simp [applyLoop, hm, hx]

theorem applyLoop_cons_fail {execOk : String → Bool} {applied : List String}
    {f : String} (rest : List String) (st : DbState)
    (hc : applied.contains (versionOf f) = false) (hx : execOk f = false) :
    applyLoop execOk applied (f :: rest) st = (st, some f) := by
  have hm : versionOf f ∉ applied := by simpa using hc
  simp [applyLoop, hm, hx]

/-- When every pending script executes successfully, the loop extends the
executed log with exactly the pending files (in order) and records exactly
their versions, and reports no error. -/
theorem applyLoop_ok_of_all (execOk : String → Bool) (applied : List String)
    (files : List String) (st : DbState)
    (h : ∀ f ∈ pendingOf applied files, execOk f = true) :
    applyLoop execOk applied files st =
      ({ schemaMigrations :=
           st.schemaMigrations ++ (pendingOf applied files).map versionOf,
         executedLog := st.executedLog ++ pendingOf applied files }, none) := by
  induction files generalizing st with
  | nil => simp [applyLoop, pendingOf]
  | cons f rest ih =>
    rcases hc : applied.contains (versionOf f) with _ | _
    · rw [pendingOf_cons_keep rest hc] at h ⊢
      have hf : execOk f = true := h f (List.mem_cons_self f _)
      rw [applyLoop_cons_exec rest st hc hf,
        ih _ (fun g hg => h g (List.mem_cons_of_mem f hg))]
      simp [List.append_assoc]
    · rw [pendingOf_cons_skip rest hc] at h ⊢
      rw [applyLoop_cons_skip execOk rest st hc]
      exact ih st h

/-- If the loop reports no error, every pending script executed successfully
and the final state is exactly the extension by the pending files. -/
theorem applyLoop_none (execOk : String → Bool) (applied : List String)
    (files : List String) (st st' : DbState)
    (h : applyLoop execOk applied files st = (st', none)) :
    (∀ f ∈ pendingOf applied files, execOk f = true) ∧
    st' = { schemaMigrations :=
              st.schemaMigrations ++ (pendingOf applied files).map versionOf,
            executedLog := st.executedLog ++ pendingOf applied files } := by
  induction files generalizing st with
  | nil =>
    simp only [applyLoop] at h
    injection h with h1 _
    refine ⟨by simp [pendingOf], ?_⟩
    simp [pendingOf, ← h1]
  | cons f rest ih =>
    rcases hc : applied.contains (versionOf f) with _ | _
    · rcases hx : execOk f with _ | _
      · rw [applyLoop_cons_fail rest st hc hx] at h
        exact absurd h (by simp)
      · rw [applyLoop_cons_exec rest st hc hx] at h
        obtain ⟨hall, hst⟩ := ih _ h
        rw [pendingOf_cons_keep rest hc]
        refine ⟨?_, ?_⟩
        · intro g hg
          rcases List.mem_cons.mp hg with rfl | hg
          · exact hx
          · exact hall g hg
        · rw [hst]
          simp [List.append_assoc]
    · rw [applyLoop_cons_skip execOk rest st hc] at h
      rw [pendingOf_cons_skip rest hc]
      exact ih st h

/-- If the loop reports an error on file `f`, then `f` is an unapplied file
whose execution failed, every pending file before it executed successfully,
and the final state extends the initial one with exactly the pending files
strictly before `f`; nothing at or after `f` was executed or recorded. -/
theorem applyLoop_some (execOk : String → Bool) (applied : List String)
    (files : List String) (st st' : DbState) (f : String)
    (h : applyLoop execOk applied files st = (st', some f)) :
    ∃ pre post, files = pre ++ f :: post ∧
      execOk f = false ∧
      applied.contains (versionOf f) = false ∧
      (∀ g ∈ pendingOf applied pre, execOk g = true) ∧
      st' = { schemaMigrations :=
                st.schemaMigrations ++ (pendingOf applied pre).map versionOf,
              executedLog := st.executedLog ++ pendingOf applied pre } := by
  induction files generalizing st with
  | nil => simp [applyLoop] at h
  | cons g rest ih =>
    rcases hc : applied.contains (versionOf g) with _ | _
    · rcases hx : execOk g with _ | _
      · rw [applyLoop_cons_fail rest st hc hx] at h
        injection h with h1 h2
        injection h2 with h3
        subst h3
        refine ⟨[], rest, rfl, hx, hc, by simp [pendingOf], ?_⟩
        simp [pendingOf, ← h1]
      · rw [applyLoop_cons_exec rest st hc hx] at h
        obtain ⟨pre, post, hsplit, hf, hnf, hall, hst⟩ := ih _ h
        refine ⟨g :: pre, post, by rw [hsplit]; rfl, hf, hnf, ?_, ?_⟩
        · intro x hxm
          rw [pendingOf_cons_keep pre hc] at hxm
          rcases List.mem_cons.mp hxm with rfl | hxm
          · exact hx
          · exact hall x hxm
        · rw [hst, pendingOf_cons_keep pre hc]
          simp [List.append_assoc]
    · rw [applyLoop_cons_skip execOk rest st hc] at h
      obtain ⟨pre, post, hsplit, hf, hnf, hall, hst⟩ := ih st h
      refine ⟨g :: pre, post, by rw [hsplit]; rfl, hf, hnf, ?_, ?_⟩
      · intro x hxm
        rw [pendingOf_cons_skip pre hc] at hxm
        exact hall x hxm
      · rw [hst, pendingOf_cons_skip pre hc]

/-- Claim C2: for every set of available migration scripts and every initial
set of recorded versions, the engine applies exactly the unapplied scripts, in
the total order obtained by sorting the migration filenames (the order is
determined by the version prefix, since an up-file is its version followed by
the fixed suffix), each executed and then recorded, and the outcome is
independent of the order in which storage enumerates the scripts. -/
theorem runMigrations_applies_sorted_unapplied
    (execOk : String → Bool) (entries entries' : List String) (st : DbState)
    (hok : ∀ f ∈ pendingOf st.schemaMigrations (sortFiles (upFiles entries)),
      execOk f = true)
    (hperm : entries'.Perm entries) :
    RunMigrations execOk entries st =
      ({ schemaMigrations := st.schemaMigrations ++
           (pendingOf st.schemaMigrations (sortFiles (upFiles entries))).map versionOf,
         executedLog := st.executedLog ++
           pendingOf st.schemaMigrations (sortFiles (upFiles entries)) }, none) ∧
    RunMigrations execOk entries' st = RunMigrations execOk entries st := by
  refine ⟨applyLoop_ok_of_all execOk st.schemaMigrations _ st hok, ?_⟩
  unfold RunMigrations upFiles
  rw [sortFiles_eq_of_perm (List.Perm.filter _ hperm)]

/-- Witness for C2 at a concrete out-of-order enumeration. -/
theorem runMigrations_applies_sorted_unapplied_witness :
    RunMigrations (fun _ => true) ["002_b.up.sql", "001_a.up.sql", "README.md"]
        ⟨[], []⟩ =
      ({ schemaMigrations := ([] : List String) ++
           (pendingOf [] (sortFiles (upFiles
             ["002_b.up.sql", "001_a.up.sql", "README.md"]))).map versionOf,
         executedLog := ([] : List String) ++
           pendingOf [] (sortFiles (upFiles
             ["002_b.up.sql", "001_a.up.sql", "README.md"])) }, none) ∧
    RunMigrations (fun _ => true) ["README.md", "001_a.up.sql", "002_b.up.sql"]
        ⟨[], []⟩ =
      RunMigrations (fun _ => true) ["002_b.up.sql", "001_a.up.sql", "README.md"]
        ⟨[], []⟩ :=
  runMigrations_applies_sorted_unapplied (fun _ => true)
    ["002_b.up.sql", "001_a.up.sql", "README.md"]
    ["README.md", "001_a.up.sql", "002_b.up.sql"]
    ⟨[], []⟩ (by decide) (by decide)

/-- Claim C3: a second run of the migration engine over the state produced by
a successful run applies no script and leaves the database and the tracking
table unchanged, whatever the execution environment of the second run. -/
theorem runMigrations_second_run_noop (execOk execOk₂ : String → Bool)
    (entries : List String) (st st' : DbState)
    (h : RunMigrations execOk entries st = (st', none)) :
    RunMigrations execOk₂ entries st' = (st', none) := by
  obtain ⟨hall, hst⟩ := applyLoop_none _ _ _ _ _ h
  have hpend : pendingOf st'.schemaMigrations (sortFiles (upFiles entries)) = [] := by
    refine List.filter_eq_nil_iff.mpr (fun f hf => ?_)
    have hmem : versionOf f ∈ st'.schemaMigrations := by
      rw [hst]
      simp only [List.mem_append]
      rcases hv : st.schemaMigrations.contains (versionOf f) with _ | _
      · right
        exact List.mem_map_of_mem versionOf (List.mem_filter.mpr ⟨hf, by simpa using hv⟩)
      · left
        simpa using hv
    simp [hmem]
  unfold RunMigrations
  rw [applyLoop_ok_of_all execOk₂ st'.schemaMigrations _ st' (by rw [hpend]; simp),
    hpend]
  simp

/-- Witness for C3: a concrete successful run followed by a second run. -/
theorem runMigrations_second_run_noop_witness :
    RunMigrations (fun _ => false) ["001_a.up.sql", "002_b.up.sql"]
        ⟨["001_a", "002_b"], ["001_a.up.sql", "002_b.up.sql"]⟩ =
      (⟨["001_a", "002_b"], ["001_a.up.sql", "002_b.up.sql"]⟩, none) :=
  runMigrations_second_run_noop (fun _ => true) (fun _ => false)
    ["001_a.up.sql", "002_b.up.sql"] ⟨[], []⟩
    ⟨["001_a", "002_b"], ["001_a.up.sql", "002_b.up.sql"]⟩ (by decide)

/-- Claim C4: if applying script `f` fails, the engine stops there, returns
the failure, executes and records exactly the unapplied scripts strictly
before `f` in the sorted order, and keeps every previously recorded version
(the old tracking table is a prefix of the new one; no rollback). -/
theorem runMigrations_failure_aborts (execOk : String → Bool)
    (entries : List String) (st st' : DbState) (f : String)
    (h : RunMigrations execOk entries st = (st', some f)) :
    ∃ pre post,
      sortFiles (upFiles entries) = pre ++ f :: post ∧
      execOk f = false ∧
      st.schemaMigrations.contains (versionOf f) = false ∧
      (∀ g ∈ pendingOf st.schemaMigrations pre, execOk g = true) ∧
      st'.executedLog = st.executedLog ++ pendingOf st.schemaMigrations pre ∧
      st'.schemaMigrations = st.schemaMigrations ++
        (pendingOf st.schemaMigrations pre).map versionOf := by
  obtain ⟨pre, post, hsplit, hf, hnf, hall, hst⟩ := applyLoop_some _ _ _ _ _ _ h
  exact ⟨pre, post, hsplit, hf, hnf, hall, by rw [hst], by rw [hst]⟩

/-- Witness for C4: a concrete run where the middle script fails. -/
theorem runMigrations_failure_aborts_witness :
    ∃ pre post,
      sortFiles (upFiles ["001_a.up.sql", "002_b.up.sql", "003_c.up.sql"]) =
        pre ++ "002_b.up.sql" :: post ∧
      (fun g => !(g == "002_b.up.sql")) "002_b.up.sql" = false ∧
      (List.contains [] (versionOf "002_b.up.sql")) = false ∧
      (∀ g ∈ pendingOf [] pre, (fun g => !(g == "002_b.up.sql")) g = true) ∧
      (DbState.mk ["001_a"] ["001_a.up.sql"]).executedLog =
        [] ++ pendingOf [] pre ∧
      (DbState.mk ["001_a"] ["001_a.up.sql"]).schemaMigrations =
        [] ++ (pendingOf [] pre).map versionOf :=
  runMigrations_failure_aborts (fun g => !(g == "002_b.up.sql"))
    ["001_a.up.sql", "002_b.up.sql", "003_c.up.sql"]
    ⟨[], []⟩ ⟨["001_a"], ["001_a.up.sql"]⟩ "002_b.up.sql" (by decide)

/-- One run of the engine only appends: there is a list of newly executed
files, appended in order to the old log, whose versions are appended to the
tracking table; none of those versions was already in the table, and when the
available scripts have pairwise-distinct versions so do the newly executed
ones. -/
theorem runMigrations_delta (execOk : String → Bool) (entries : List String)
    (st : DbState) :
    ∃ newFiles : List String,
      ((RunMigrations execOk entries st).1).executedLog =
        st.executedLog ++ newFiles ∧
      ((RunMigrations execOk entries st).1).schemaMigrations =
        st.schemaMigrations ++ newFiles.map versionOf ∧
      (∀ f ∈ newFiles, versionOf f ∉ st.schemaMigrations) ∧
      (((upFiles entries).map versionOf).Nodup → (newFiles.map versionOf).Nodup) := by
  rcases h : RunMigrations execOk entries st with ⟨st', e⟩
  have hsubnodup : ∀ l : List String, l.Sublist (sortFiles (upFiles entries)) →
      ((upFiles entries).map versionOf).Nodup → (l.map versionOf).Nodup := by
    intro l hsub hnodup
    have hperm : ((sortFiles (upFiles entries)).map versionOf).Perm
        ((upFiles entries).map versionOf) :=
      List.Perm.map versionOf (sortFiles_perm (upFiles entries))
    exact List.Nodup.sublist (List.Sublist.map versionOf hsub)
      (hperm.nodup_iff.mpr hnodup)
  have hfreshpend : ∀ l : List String, ∀ f ∈ pendingOf st.schemaMigrations l,
      versionOf f ∉ st.schemaMigrations := by
    intro l f hf hmem
    have := (List.mem_filter.mp hf).2
    simp only [Bool.not_eq_true'] at this
    simp [hmem] at this
  cases e with
  | none =>
    obtain ⟨hall, hst⟩ := applyLoop_none _ _ _ _ _ h
    refine ⟨pendingOf st.schemaMigrations (sortFiles (upFiles entries)),
      by rw [hst], by rw [hst], hfreshpend _, ?_⟩
    exact hsubnodup _ ((List.filter_sublist _).trans (List.Sublist.refl _))
  | some f =>
    obtain ⟨pre, post, hsplit, hf, hnf, hall, hst⟩ := applyLoop_some _ _ _ _ _ _ h
    refine ⟨pendingOf st.schemaMigrations pre,
      by rw [hst], by rw [hst], hfreshpend _, ?_⟩
    refine hsubnodup _ ((List.filter_sublist _).trans ?_)
    rw [hsplit]
    exact List.sublist_append_left pre (f :: post)

/-- A sequence of engine runs, each with its own execution environment and its
own enumeration of the scripts directory, against the same database. -/
def runSeq (runs : List ((String → Bool) × List String)) (st : DbState) : DbState :=
  runs.foldl (fun s r => (RunMigrations r.1 r.2 s).1) st

theorem runSeq_nil (st : DbState) : runSeq [] st = st := rfl

theorem runSeq_cons (r : (String → Bool) × List String)
    (rest : List ((String → Bool) × List String)) (st : DbState) :
    runSeq (r :: rest) st = runSeq rest (RunMigrations r.1 r.2 st).1 := rfl

/-- Claim C5: across any sequence of runs, each migration version is applied
effectively at most once.  A version present in the tracking table at the
start is never re-executed, the newly executed files have pairwise distinct
versions (one execution per version), and the final tracking table, old
versions followed by the newly executed ones, contains each version at most
once. -/
theorem migration_versions_at_most_once
    (runs : List ((String → Bool) × List String)) (st : DbState)
    (hinit : st.schemaMigrations.Nodup)
    (hruns : ∀ r ∈ runs, ((upFiles r.2).map versionOf).Nodup) :
    ∃ newFiles : List String,
      (runSeq runs st).executedLog = st.executedLog ++ newFiles ∧
      (runSeq runs st).schemaMigrations =
        st.schemaMigrations ++ newFiles.map versionOf ∧
      (∀ f ∈ newFiles, versionOf f ∉ st.schemaMigrations) ∧
      (newFiles.map versionOf).Nodup ∧
      (runSeq runs st).schemaMigrations.Nodup := by
  induction runs generalizing st with
  | nil =>
    exact ⟨[], by simp [runSeq_nil], by simp [runSeq_nil], by simp, by simp,
      by rw [runSeq_nil]; exact hinit⟩
  | cons r rest ih =>
    obtain ⟨d1, hlog1, hsch1, hfresh1, hnd1⟩ := runMigrations_delta r.1 r.2 st
    have hnd1' : (d1.map versionOf).Nodup := hnd1 (hruns r (List.mem_cons_self r rest))
    have hst1nodup : ((RunMigrations r.1 r.2 st).1).schemaMigrations.Nodup := by
      rw [hsch1]
      refine List.Nodup.append hinit hnd1' (List.disjoint_left.mpr ?_)
      intro a ha hmem
      obtain ⟨f, hfd, rfl⟩ := List.mem_map.mp hmem
      exact hfresh1 f hfd ha
    obtain ⟨d2, hlog2, hsch2, hfresh2, hnd2, hfinal⟩ :=
      ih (RunMigrations r.1 r.2 st).1 hst1nodup
        (fun x hx => hruns x (List.mem_cons_of_mem r hx))
    refine ⟨d1 ++ d2, ?_, ?_, ?_, ?_, ?_⟩
    · rw [runSeq_cons, hlog2, hlog1, List.append_assoc]
    · rw [runSeq_cons, hsch2, hsch1, List.map_append, List.append_assoc]
    · intro f hfm
      rcases List.mem_append.mp hfm with h1 | h2
      · exact hfresh1 f h1
      · intro hmem
        exact hfresh2 f h2 (hsch1 ▸ List.mem_append_left _ hmem)
    · rw [List.map_append]
      refine List.Nodup.append hnd1' hnd2 (List.disjoint_left.mpr ?_)
      intro a ha hmem2
      obtain ⟨f, hfd, rfl⟩ := List.mem_map.mp hmem2
      exact hfresh2 f hfd (hsch1 ▸ List.mem_append_right _ ha)
    · rw [runSeq_cons]
      exact hfinal

/-- Witness for C5 at two concrete consecutive runs. -/
theorem migration_versions_at_most_once_witness :
    ∃ newFiles : List String,
      (runSeq [(fun _ => true, ["001_a.up.sql"]),
               (fun _ => true, ["001_a.up.sql", "002_b.up.sql"])]
          ⟨[], []⟩).executedLog = [] ++ newFiles ∧
      (runSeq [(fun _ => true, ["001_a.up.sql"]),
               (fun _ => true, ["001_a.up.sql", "002_b.up.sql"])]
          ⟨[], []⟩).schemaMigrations = [] ++ newFiles.map versionOf ∧
      (∀ f ∈ newFiles, versionOf f ∉ ([] : List String)) ∧
      (newFiles.map versionOf).Nodup ∧
      (runSeq [(fun _ => true, ["001_a.up.sql"]),
               (fun _ => true, ["001_a.up.sql", "002_b.up.sql"])]
          ⟨[], []⟩).schemaMigrations.Nodup :=
  migration_versions_at_most_once
    [(fun _ => true, ["001_a.up.sql"]),
     (fun _ => true, ["001_a.up.sql", "002_b.up.sql"])]
    ⟨[], []⟩ (by decide) (by decide)

/-! ### Go error values and gRPC classification (`grpc/errors.MapError`) -/

/-- Go error values as built by the repository and service layers:
`repository.ErrNotFound`, pgx unique-violation errors, `fmt.Errorf` wrapping
with `%w`, and plain `fmt.Errorf` messages. -/
inductive GoErr where
  | notFound
  | pgUniqueViolation (constraintName : String)
  | wrap (msg : String) (inner : GoErr)
  | plain (msg : String)
deriving Repr, DecidableEq

/-- `err.Error()`: the rendered message. -/
def GoErr.message : GoErr → String
  | .notFound => "not found"
  | .pgUniqueViolation c =>
      "ERROR: duplicate key value violates unique constraint " ++ c ++
        " (SQLSTATE 23505)"
  | .wrap m e => m ++ ": " ++ e.message
  | .plain m => m

/-- `errors.Is(err, repository.ErrNotFound)`: unwraps `%w` chains. -/
def GoErr.isNotFound : GoErr → Bool
  | .notFound => true
  | .wrap _ e => e.isNotFound
  | _ => false

/-- The gRPC status codes used by the error taxonomy.  `alreadyExists` is the
wire-level form of the `Conflict` category. -/
inductive Code where
  | ok
  | invalidArgument
  | notFound
  | alreadyExists
  | unavailable
  | failedPrecondition
  | internal
deriving Repr, DecidableEq

/-- Occurrence of `sub` as a contiguous subsequence of `s`, structurally. -/
def listContainsSub (sub : List Char) : List Char → Bool
  | [] => sub.isEmpty
  | c :: rest => sub.isPrefixOf (c :: rest) || listContainsSub sub rest

/-- `strings.Contains(s, sub)` on the character sequences. -/
def goContains (s sub : String) : Bool :=
  listContainsSub sub.data s.data

/-- `grpc/errors.MapError`: `ErrNotFound` maps to NotFound; messages containing
"required" or "invalid" map to InvalidArgument; everything else maps to
Internal. -/
def MapError (err : GoErr) : Code :=
  if err.isNotFound then .notFound
  else if goContains err.message "required" || goContains err.message "invalid" then
    .invalidArgument
  else .internal

/-! ### Tenant registry: `PostgresTenantRepository` and `TenantService` -/

/-- `repository.Tenant` (models.go); timestamps as abstract instants. -/
structure Tenant where
  id : String
  slug : String
  name : String
  status : String
  createdAt : Nat
  updatedAt : Nat
deriving Repr, DecidableEq

/-- The `tenants` table insert (001_create_tenants.up.sql): rejected by the
`UNIQUE` constraint on `slug` (and the primary key on `id`) at the database,
not by a prior read. -/
def tenantsInsert (tbl : List Tenant) (t : Tenant) :
    Except GoErr (List Tenant × Tenant) :=
  if tbl.any (fun row => row.slug == t.slug) then
    .error (.pgUniqueViolation "tenants_slug_key")
  else if tbl.any (fun row => row.id == t.id) then
    .error (.pgUniqueViolation "tenants_pkey")
  else .ok (tbl ++ [t], t)

/-- `PostgresTenantRepository.Create`: assign a fresh id and timestamps,
default the status to `active`, insert, and wrap any database error. -/
def tenantRepoCreate (newId : String) (now : Nat) (tbl : List Tenant)
    (tenant : Tenant) : Except GoErr (List Tenant × Tenant) :=
  let t0 := { tenant with id := newId, createdAt := now, updatedAt := now }
  let t1 := if t0.status == "" then { t0 with status := "active" } else t0
  match tenantsInsert tbl t1 with
  | .error e => .error (.wrap "failed to create tenant" e)
  | .ok r => .ok r

/-- `PostgresTenantRepository.GetByID`. -/
def tenantRepoGetByID (tbl : List Tenant) (id : String) : Except GoErr Tenant :=
  match tbl.find? (fun row => row.id == id) with
  | none => .error .notFound
  | some t => .ok t

/-- `PostgresTenantRepository.Update`: set `updated_at`, update the row by id
(keeping `created_at`), `ErrNotFound` when no row matches, and surface a
unique violation when the new slug collides with a different row. -/
def tenantRepoUpdate (now : Nat) (tbl : List Tenant) (tenant : Tenant) :
    Except GoErr (List Tenant × Tenant) :=
  let t := { tenant with updatedAt := now }
  match tbl.find? (fun row => row.id == t.id) with
  | none => .error .notFound
  | some old =>
    if tbl.any (fun row => !(row.id == t.id) && row.slug == t.slug) then
      .error (.wrap "failed to update tenant" (.pgUniqueViolation "tenants_slug_key"))
    else
      let updated := { t with createdAt := old.createdAt }
      .ok (tbl.map (fun row => if row.id == t.id then updated else row), updated)

/-- `TenantService.Create`: validate, then insert a Tenant carrying only the
slug and the name. -/
def tenantServiceCreate (newId : String) (now : Nat) (tbl : List Tenant)
    (slug name : String) : Except GoErr (List Tenant × Tenant) :=
  if slug == "" then .error (.plain "slug is required")
  else if name == "" then .error (.plain "name is required")
  else tenantRepoCreate newId now tbl
    { id := "", slug := slug, name := name, status := "", createdAt := 0,
      updatedAt := 0 }

/-- `TenantService.Update`: fetch the tenant, overwrite exactly the fields
whose argument is non-empty, and store the result. -/
def tenantServiceUpdate (now : Nat) (tbl : List Tenant)
    (id slug name status : String) : Except GoErr (List Tenant × Tenant) :=
  if id == "" then .error (.plain "id is required")
  else match tenantRepoGetByID tbl id with
    | .error e => .error e
    | .ok tenant =>
      let t0 := if !(slug == "") then { tenant with slug := slug } else tenant
      let t1 := if !(name == "") then { t0 with name := name } else t0
      let t2 := if !(status == "") then { t1 with status := status } else t1
      tenantRepoUpdate now tbl t2

/-- `TenantHandler.CreateTenant`: service call, errors classified by
`MapError`. -/
def handlerCreateTenant (newId : String) (now : Nat) (tbl : List Tenant)
    (slug name : String) : Except Code (List Tenant × Tenant) :=
  match tenantServiceCreate newId now tbl slug name with
  | .error e => .error (MapError e)
  | .ok r => .ok r

/-- Counterexample for C1: a createTenant call whose slug equals the slug of
an existing tenant fails, but the error surfaced through the gRPC layer is
classified Internal, not Conflict (AlreadyExists): `MapError` has no branch
for unique-constraint violations. -/
theorem createTenant_duplicate_not_conflict_cex :
    handlerCreateTenant "4f3a" 1
        [⟨"9d2c", "duplicate-slug", "First", "active", 0, 0⟩]
        "duplicate-slug" "Second" = .error Code.internal ∧
    Code.internal ≠ Code.alreadyExists :=
  ⟨rfl, by decide⟩

/-- Claim C1 (amended): a createTenant call on an existing slug always fails,
rejected by the registry uniqueness constraint `tenants_slug_key` (the insert
itself is refused; there is no prior existence check), but the error surfaced
to the caller is classified Internal, not Conflict. -/
theorem createTenant_duplicate_slug_internal (newId : String) (now : Nat)
    (tbl : List Tenant) (slug name : String)
    (hs : slug ≠ "") (hn : name ≠ "")
    (hdup : tbl.any (fun row => row.slug == slug) = true) :
    tenantServiceCreate newId now tbl slug name =
      .error (.wrap "failed to create tenant"
        (.pgUniqueViolation "tenants_slug_key")) ∧
    handlerCreateTenant newId now tbl slug name = .error Code.internal := by
  have hs' : (slug == "") = false := by simpa using hs
  have hn' : (name == "") = false := by simpa using hn
  have h1 : tenantServiceCreate newId now tbl slug name =
      .error (.wrap "failed to create tenant"
        (.pgUniqueViolation "tenants_slug_key")) := by
    simp [tenantServiceCreate, tenantRepoCreate, tenantsInsert, hs', hn', hdup]
  refine ⟨h1, ?_⟩
  simp only [handlerCreateTenant, h1]
  rfl

/-- Witness for the amended C1 at a concrete duplicate slug. -/
theorem createTenant_duplicate_slug_internal_witness :
    tenantServiceCreate "4f3b" 2
        [⟨"9d2c", "duplicate-slug", "First", "active", 0, 0⟩]
        "duplicate-slug" "Second" =
      .error (.wrap "failed to create tenant"
        (.pgUniqueViolation "tenants_slug_key")) ∧
    handlerCreateTenant "4f3b" 2
        [⟨"9d2c", "duplicate-slug", "First", "active", 0, 0⟩]
        "duplicate-slug" "Second" = .error Code.internal :=
  createTenant_duplicate_slug_internal "4f3b" 2
    [⟨"9d2c", "duplicate-slug", "First", "active", 0, 0⟩]
    "duplicate-slug" "Second" (by decide) (by decide) (by decide)

/-- Claim C6: a createTenant call with a fresh slug that succeeds inserts and
returns a Tenant row with status `active`, carrying the given slug and name
(and the fresh id and creation time). -/
theorem createTenant_fresh_slug_active (newId : String) (now : Nat)
    (tbl : List Tenant) (slug name : String)
    (hs : slug ≠ "") (hn : name ≠ "")
    (hfresh : tbl.any (fun row => row.slug == slug) = false)
    (hid : tbl.any (fun row => row.id == newId) = false) :
    tenantServiceCreate newId now tbl slug name =
      .ok (tbl ++ [⟨newId, slug, name, "active", now, now⟩],
           ⟨newId, slug, name, "active", now, now⟩) := by
  have hs' : (slug == "") = false := by simpa using hs
  have hn' : (name == "") = false := by simpa using hn
  simp [tenantServiceCreate, tenantRepoCreate, tenantsInsert, hs', hn',
    hfresh, hid]

/-- Witness for C6 at a concrete fresh slug. -/
theorem createTenant_fresh_slug_active_witness :
    tenantServiceCreate "7c1e" 5
        [⟨"9d2c", "other-slug", "Other", "active", 0, 0⟩] "acme-corp" "Acme" =
      .ok ([⟨"9d2c", "other-slug", "Other", "active", 0, 0⟩,
            ⟨"7c1e", "acme-corp", "Acme", "active", 5, 5⟩],
           ⟨"7c1e", "acme-corp", "Acme", "active", 5, 5⟩) :=
  createTenant_fresh_slug_active "7c1e" 5
    [⟨"9d2c", "other-slug", "Other", "active", 0, 0⟩] "acme-corp" "Acme"
    (by decide) (by decide) (by decide) (by decide)

/-- Claim C10: updating an existing tenant overwrites exactly the fields whose
argument is non-empty; an empty slug, name, or status argument leaves the
stored field unchanged, the id and creation time are untouched, only
`updated_at` changes besides, and every other row of the table is left as it
was. -/
theorem tenantUpdate_empty_args_frame (now : Nat) (tbl : List Tenant)
    (id slug name status : String) (r : Tenant)
    (hid : id ≠ "")
    (hfind : tbl.find? (fun row => row.id == id) = some r)
    (hnocol : tbl.any (fun row => !(row.id == id) &&
      row.slug == (if slug == "" then r.slug else slug)) = false) :
    tenantServiceUpdate now tbl id slug name status =
      .ok (tbl.map (fun row => if row.id == id then
             ⟨id, if slug == "" then r.slug else slug,
              if name == "" then r.name else name,
              if status == "" then r.status else status,
              r.createdAt, now⟩ else row),
           ⟨id, if slug == "" then r.slug else slug,
            if name == "" then r.name else name,
            if status == "" then r.status else status,
            r.createdAt, now⟩) := by
  have hid' : (id == "") = false := by simpa using hid
  have hrid : r.id = id := by simpa using List.find?_some hfind
  rcases hsl : (slug == "") with _ | _ <;>
    rcases hnm : (name == "") with _ | _ <;>
      rcases hst : (status == "") with _ | _ <;>
  · rw [hsl] at hnocol
    simp only [Bool.false_eq_true, if_false, if_true] at hnocol
    simp only [tenantServiceUpdate, tenantRepoGetByID, tenantRepoUpdate, hid',
      hfind, hsl, hnm, hst, Bool.false_eq_true, if_false, if_true,
      Bool.not_false, Bool.not_true, Bool.ite_eq_true_distrib]
    simp only [hrid, hfind, hnocol, Bool.false_eq_true, if_false]

/-- Witness for C10: an update with empty name and status arguments keeps
those fields and rewrites only the slug and the update time. -/
theorem tenantUpdate_empty_args_frame_witness :
    tenantServiceUpdate 9
        [⟨"a1", "old-slug", "Old Name", "inactive", 3, 4⟩,
         ⟨"b2", "other", "Other", "active", 0, 0⟩] "a1" "new-slug" "" "" =
      .ok ([⟨"a1", "new-slug", "Old Name", "inactive", 3, 9⟩,
            ⟨"b2", "other", "Other", "active", 0, 0⟩],
           ⟨"a1", "new-slug", "Old Name", "inactive", 3, 9⟩) := by
  have h := tenantUpdate_empty_args_frame 9
    [⟨"a1", "old-slug", "Old Name", "inactive", 3, 4⟩,
     ⟨"b2", "other", "Other", "active", 0, 0⟩] "a1" "new-slug" "" ""
    ⟨"a1", "old-slug", "Old Name", "inactive", 3, 4⟩
    (by decide) (by decide) (by decide)
  rw [h]
  rfl

/-! ### Nodes and relationships: `RelationshipService.Create` -/

/-- `repository.Node` (models.go). -/
structure Node where
  id : String
  tenantID : String
  nodeTypeID : String
  data : String
  createdAt : Nat
  updatedAt : Nat
deriving Repr, DecidableEq

/-- `repository.Relationship` (models.go). -/
structure Relationship where
  id : String
  tenantID : String
  sourceNodeID : String
  targetNodeID : String
  relationshipType : String
  data : String
  createdAt : Nat
  updatedAt : Nat
deriving Repr, DecidableEq

/-- `PostgresNodeRepository.GetByID`: select by id and tenant id,
`ErrNotFound` when no row matches both. -/
def nodeRepoGetByID (nodes : List Node) (tenantID id : String) :
    Except GoErr Node :=
  match nodes.find? (fun n => n.id == id && n.tenantID == tenantID) with
  | none => .error .notFound
  | some n => .ok n

/-- `PostgresRelationshipRepository.Create`: assign a fresh id and timestamps,
default empty data to the empty JSON object, insert. -/
def relationshipRepoCreate (newId : String) (now : Nat)
    (rels : List Relationship) (rel : Relationship) :
    List Relationship × Relationship :=
  let r0 := { rel with id := newId, createdAt := now, updatedAt := now }
  let r1 := if r0.data == "" then { r0 with data := "\x7b\x7d" } else r0
  (rels ++ [r1], r1)

/-- `RelationshipService.Create`: validate the arguments, check that the
source and the target node each exist and belong to the tenant, then insert.
Returns the relationship table after the call together with the result; on
error the repository insert is never reached and the table is unchanged. -/
def relationshipServiceCreate (newId : String) (now : Nat)
    (nodes : List Node) (rels : List Relationship)
    (tenantID sourceNodeID targetNodeID relType data : String) :
    List Relationship × Except GoErr Relationship :=
  if tenantID == "" then (rels, .error (.plain "tenant_id is required"))
  else if sourceNodeID == "" then
    (rels, .error (.plain "source_node_id is required"))
  else if targetNodeID == "" then
    (rels, .error (.plain "target_node_id is required"))
  else if relType == "" then
    (rels, .error (.plain "relationship_type is required"))
  else
    match nodeRepoGetByID nodes tenantID sourceNodeID with
    | .error _ => (rels, .error (.plain
        "invalid source_node_id: node not found or does not belong to this tenant"))
    | .ok sourceNode =>
      if !(sourceNode.tenantID == tenantID) then
        (rels, .error (.plain
          "invalid source_node_id: node does not belong to this tenant"))
      else
        match nodeRepoGetByID nodes tenantID targetNodeID with
        | .error _ => (rels, .error (.plain
            "invalid target_node_id: node not found or does not belong to this tenant"))
        | .ok targetNode =>
          if !(targetNode.tenantID == tenantID) then
            (rels, .error (.plain
              "invalid target_node_id: node does not belong to this tenant"))
          else
            let res := relationshipRepoCreate newId now rels
              ⟨"", tenantID, sourceNodeID, targetNodeID, relType, data, 0, 0⟩
            (res.1, .ok res.2)

theorem nodeRepoGetByID_ok (nodes : List Node) (tenantID id : String)
    (n : Node) (h : nodeRepoGetByID nodes tenantID id = .ok n) :
    n ∈ nodes ∧ n.id = id ∧ n.tenantID = tenantID := by
  unfold nodeRepoGetByID at h
  rcases hf : nodes.find? (fun m => m.id == id && m.tenantID == tenantID) with _ | m
  · rw [hf] at h
    exact absurd h (by simp)
  · rw [hf] at h
    have hn : m = n := by injection h
    subst hn
    have hp := List.find?_some hf
    simp only [Bool.and_eq_true, beq_iff_eq] at hp
    exact ⟨List.mem_of_find?_eq_some hf, hp.1, hp.2⟩

/-- Claim C9: a relationship is created only when both the source and the
target node exist and belong to the given tenant; when the service returns an
error, the relationship table is unchanged.  Hence no stored relationship ever
references a node of another tenant. -/
theorem relationshipCreate_tenant_isolation (newId : String) (now : Nat)
    (nodes : List Node) (rels : List Relationship)
    (tenantID sourceNodeID targetNodeID relType data : String) :
    (∀ rels' rel,
      relationshipServiceCreate newId now nodes rels tenantID sourceNodeID
          targetNodeID relType data = (rels', .ok rel) →
      (∃ s ∈ nodes, s.id = sourceNodeID ∧ s.tenantID = tenantID) ∧
      (∃ t ∈ nodes, t.id = targetNodeID ∧ t.tenantID = tenantID) ∧
      rels' = rels ++ [rel] ∧ rel.tenantID = tenantID ∧
      rel.sourceNodeID = sourceNodeID ∧ rel.targetNodeID = targetNodeID) ∧
    (∀ rels' e,
      relationshipServiceCreate newId now nodes rels tenantID sourceNodeID
          targetNodeID relType data = (rels', .error e) → rels' = rels) := by
  constructor
  · intro rels' rel h
    unfold relationshipServiceCreate at h
    split at h
    · exact absurd h (by simp)
    · split at h
      · exact absurd h (by simp)
      · split at h
        · exact absurd h (by simp)
        · split at h
          · exact absurd h (by simp)
          · split at h
            · exact absurd h (by simp)
            · rename_i sourceNode hsrc
              split at h
              · exact absurd h (by simp)
              · split at h
                · exact absurd h (by simp)
                · rename_i targetNode htgt
                  split at h
                  · exact absurd h (by simp)
                  · obtain ⟨hsm, hsid, hstid⟩ :=
                      nodeRepoGetByID_ok nodes tenantID sourceNodeID sourceNode hsrc
                    obtain ⟨htm, htid, httid⟩ :=
                      nodeRepoGetByID_ok nodes tenantID targetNodeID targetNode htgt
                    simp only [relationshipRepoCreate, Prod.mk.injEq] at h
                    obtain ⟨hrels, hrel⟩ := h
                    have hrel' := hrel
                    injection hrel' with hrow
                    refine ⟨⟨sourceNode, hsm, hsid, hstid⟩,
                      ⟨targetNode, htm, htid, httid⟩, ?_, ?_, ?_, ?_⟩
                    · rw [← hrels, ← hrow]
                    · rw [← hrow]
                      split <;> rfl
                    · rw [← hrow]
                      split <;> rfl
                    · rw [← hrow]
                      split <;> rfl
  · intro rels' e h
    unfold relationshipServiceCreate at h
    split at h
    · exact (Prod.mk.injEq .. ▸ h).1.symm
    · split at h
      · exact (Prod.mk.injEq .. ▸ h).1.symm
      · split at h
        · exact (Prod.mk.injEq .. ▸ h).1.symm
        · split at h
          · exact (Prod.mk.injEq .. ▸ h).1.symm
          · split at h
            · exact (Prod.mk.injEq .. ▸ h).1.symm
            · split at h
              · exact (Prod.mk.injEq .. ▸ h).1.symm
              · split at h
                · exact (Prod.mk.injEq .. ▸ h).1.symm
                · split at h
                  · exact (Prod.mk.injEq .. ▸ h).1.symm
                  · exact absurd (Prod.mk.injEq .. ▸ h).2 (by simp)

/-- Witness for C9 at a concrete successful call and a concrete
foreign-tenant rejection. -/
theorem relationshipCreate_tenant_isolation_witness :
    ((∃ s ∈ [Node.mk "n1" "t1" "ty" "d" 0 0, Node.mk "n2" "t1" "ty" "d" 0 0],
        s.id = "n1" ∧ s.tenantID = "t1") ∧
      (∃ t ∈ [Node.mk "n1" "t1" "ty" "d" 0 0, Node.mk "n2" "t1" "ty" "d" 0 0],
        t.id = "n2" ∧ t.tenantID = "t1") ∧
      ([Relationship.mk "r1" "t1" "n1" "n2" "likes" "\x7b\x7d" 7 7] :
          List Relationship) =
        [] ++ [Relationship.mk "r1" "t1" "n1" "n2" "likes" "\x7b\x7d" 7 7] ∧
      (Relationship.mk "r1" "t1" "n1" "n2" "likes" "\x7b\x7d" 7 7).tenantID = "t1" ∧
      (Relationship.mk "r1" "t1" "n1" "n2" "likes" "\x7b\x7d" 7 7).sourceNodeID = "n1" ∧
      (Relationship.mk "r1" "t1" "n1" "n2" "likes" "\x7b\x7d" 7 7).targetNodeID = "n2") ∧
    ([] : List Relationship) = [] :=
  ⟨(relationshipCreate_tenant_isolation "r1" 7
      [Node.mk "n1" "t1" "ty" "d" 0 0, Node.mk "n2" "t1" "ty" "d" 0 0] []
      "t1" "n1" "n2" "likes" "").1
    [Relationship.mk "r1" "t1" "n1" "n2" "likes" "\x7b\x7d" 7 7]
    (Relationship.mk "r1" "t1" "n1" "n2" "likes" "\x7b\x7d" 7 7) rfl,
   (relationshipCreate_tenant_isolation "r1" 7
      [Node.mk "n1" "t1" "ty" "d" 0 0] [] "t2" "n1" "n1" "likes" "").2
    [] (.plain
      "invalid source_node_id: node not found or does not belong to this tenant")
    rfl⟩

/-! ### Tenant resolver and startup -/

/-- Modelled from the spec: the status field of a TenantDatabaseMapping
(section 3 of the spec); the Tenant Resolver implementation itself is not
under the source tree, only the control-table schema (`tenant_databases`) and
the architecture documents describe it. -/
inductive MappingStatus where
  | active
  | provisioning
  | failed
deriving Repr, DecidableEq

/-- Modelled from the spec: the error taxonomy of `resolve` (sections 4.5, 6
and 7 of the spec). -/
inductive ResolveErr where
  | notFound
  | unavailable
  | provisioningFailed
deriving Repr, DecidableEq

/-- Modelled from the spec: the control-store state seen by the resolver —
the registered tenant ids and the `tenant_databases` rows (tenant id,
database name, status). -/
structure ResolverState where
  tenants : List String
  mappings : List (String × String × MappingStatus)
deriving Repr, DecidableEq

/-- Modelled from the spec: `getMapping(tenantID)` of the Tenant Registry. -/
def getMapping (st : ResolverState) (tenantID : String) :
    Option (String × MappingStatus) :=
  match st.mappings.find? (fun m => m.1 == tenantID) with
  | none => none
  | some m => some m.2

/-- Modelled from the spec: `resolve(tenantID)` of the Tenant Resolver
(section 4.5).  Unknown tenant fails with NotFound; a present mapping is
dispatched on its status — `provisioning` fails fast with Unavailable,
`failed` with ProvisioningFailed, `active` returns the pooled handle for the
mapped database name; an absent mapping triggers provisioning, whose outcome
(`provisionResult`) either yields the handle or surfaces ProvisioningFailed. -/
def resolve (provisionResult : Except Unit String) (st : ResolverState)
    (tenantID : String) : Except ResolveErr String :=
  if !(st.tenants.contains tenantID) then .error .notFound
  else
    match getMapping st tenantID with
    | none =>
      match provisionResult with
      | .ok db => .ok db
      | .error _ => .error .provisioningFailed
    | some (_, .provisioning) => .error .unavailable
    | some (_, .failed) => .error .provisioningFailed
    | some (db, .active) => .ok db

/-- Claim C7: `resolve` returns exactly one of NotFound (tenant absent),
Unavailable (mapping `provisioning`), ProvisioningFailed (mapping `failed`),
or a usable handle; and a handle is never returned when the mapping is
`provisioning` or `failed`. -/
theorem resolve_outcomes (provisionResult : Except Unit String)
    (st : ResolverState) (tenantID : String) :
    ((∃ h, resolve provisionResult st tenantID = .ok h) ∨
      resolve provisionResult st tenantID = .error .notFound ∨
      resolve provisionResult st tenantID = .error .unavailable ∨
      resolve provisionResult st tenantID = .error .provisioningFailed) ∧
    (st.tenants.contains tenantID = false →
      resolve provisionResult st tenantID = .error .notFound) ∧
    (∀ db, st.tenants.contains tenantID = true →
      getMapping st tenantID = some (db, .provisioning) →
      resolve provisionResult st tenantID = .error .unavailable) ∧
    (∀ db, st.tenants.contains tenantID = true →
      getMapping st tenantID = some (db, .failed) →
      resolve provisionResult st tenantID = .error .provisioningFailed) ∧
    (∀ db, st.tenants.contains tenantID = true →
      getMapping st tenantID = some (db, .active) →
      resolve provisionResult st tenantID = .ok db) ∧
    (∀ h, resolve provisionResult st tenantID = .ok h →
      ∀ db, getMapping st tenantID ≠ some (db, .provisioning) ∧
        getMapping st tenantID ≠ some (db, .failed)) := by
  refine ⟨?_, ?_, ?_, ?_, ?_, ?_⟩
  · unfold resolve
    rcases st.tenants.contains tenantID with _ | _
    · simp
    · simp only [Bool.not_true, Bool.false_eq_true, if_false]
      rcases getMapping st tenantID with _ | ⟨db, status⟩
      · rcases provisionResult with _ | db
        · right; right; right; rfl
        · left; exact ⟨db, rfl⟩
      · cases status
        · left; exact ⟨db, rfl⟩
        · right; right; left; rfl
        · right; right; right; rfl
  · intro hc
    unfold resolve
    rw [hc]
    rfl
  · intro db hc hm
    unfold resolve
    rw [hc, hm]
    rfl
  · intro db hc hm
    unfold resolve
    rw [hc, hm]
    rfl
  · intro db hc hm
    unfold resolve
    rw [hc, hm]
    rfl
  · intro h hok db
    unfold resolve at hok
    rcases hc : st.tenants.contains tenantID with _ | _
    · rw [hc] at hok
      exact absurd hok (by simp)
    · rw [hc] at hok
      simp only [Bool.not_true, Bool.false_eq_true, if_false] at hok
      rcases hm : getMapping st tenantID with _ | ⟨db', status⟩
      · simp [hm]
      · rw [hm] at hok
        cases status
        · simp [hm]
        · exact absurd hok (by simp)
        · exact absurd hok (by simp)

/-- Witness for C7 at a concrete active mapping. -/
theorem resolve_outcomes_witness :
    resolve (.error ()) ⟨["t1"], [("t1", "tenant_acme", .active)]⟩ "t1" =
      .ok "tenant_acme" :=
  (resolve_outcomes (.error ()) ⟨["t1"], [("t1", "tenant_acme", .active)]⟩
      "t1").2.2.2.2.1 "tenant_acme" (by decide) (by decide)

/-- The outcome of process startup (`cmd/dbaas-server/main.go`): connect to
the control database (failure is `log.Fatalf`), run the migrations (failure
is `log.Fatalf`), and only then build the services and serve gRPC. -/
inductive MainOutcome where
  | fatalConnect
  | fatalMigrations (failedScript : String)
  | serving (db : DbState)
deriving Repr, DecidableEq

/-- `main`: the startup sequence up to the point where the gRPC server starts
serving, with the environment abstracted as whether the connect-and-ping
succeeds and how script execution behaves. -/
def mainRun (connectOk : Bool) (execOk : String → Bool)
    (entries : List String) (init : DbState) : MainOutcome :=
  if !connectOk then .fatalConnect
  else
    match RunMigrations execOk entries init with
    | (_, some f) => .fatalMigrations f
    | (st, none) => .serving st

/-- Claim C8: the serving state is reachable only when the control-database
connection succeeded and the startup migrations ran to completion; a failed
connect or a failed migration terminates startup instead. -/
theorem serving_requires_connect_and_migrations (connectOk : Bool)
    (execOk : String → Bool) (entries : List String) (init : DbState)
    (st : DbState)
    (h : mainRun connectOk execOk entries init = .serving st) :
    connectOk = true ∧ RunMigrations execOk entries init = (st, none) := by
  unfold mainRun at h
  rcases hc : connectOk with _ | _
  · rw [hc] at h
    exact absurd h (by simp)
  · rw [hc] at h
    simp only [Bool.not_true, Bool.false_eq_true, if_false] at h
    rcases hr : RunMigrations execOk entries init with ⟨st', e⟩
    rw [hr] at h
    cases e with
    | some f => exact absurd h (by simp)
    | none =>
      have hst : st' = st := by injection h
      exact ⟨rfl, by rw [hst]⟩

/-- Witness for C8 at a concrete successful startup. -/
theorem serving_requires_connect_and_migrations_witness :
    true = true ∧
    RunMigrations (fun _ => true) ["001_a.up.sql"] ⟨[], []⟩ =
      (⟨["001_a"], ["001_a.up.sql"]⟩, none) :=
  serving_requires_connect_and_migrations true (fun _ => true) ["001_a.up.sql"]
    ⟨[], []⟩ ⟨["001_a"], ["001_a.up.sql"]⟩ (by decide)

end FlexDb
